import Mathlib

/-!
Verification of the Project Sentinel anomaly-detection engine
(`scripts/anamoly_engine.py`).

The engine is a five-stage batch pipeline over tabular records:
data preparation, per-state grouping, a z-score scorer, an IQR scorer,
flag reconciliation, and report generation.  The embedding below models
rows as structures, numeric cells as rationals (the float computations of
the source are modelled by exact arithmetic; the z-score, which divides by
a square root, lives in the reals), pandas column assignments as pure
record updates, and the sequential `.loc` flag assignments of the source
as sequential conditional overwrites (the later assignment wins), exactly
as pandas executes them.
-/

/-- Categorical flag attached per record by each scorer.  In the source
these are the five strings Normal, Hot_High, Hot_Medium, Dark_High,
Dark_Medium. -/
inductive ScoreFlag where
  | Normal
  | Hot_High
  | Hot_Medium
  | Dark_High
  | Dark_Medium
  deriving DecidableEq, Fintype, Repr

/-- Reconciled verdict.  In the source these are the five strings
NORMAL, HOT_SPOT_HIGH, HOT_SPOT_MEDIUM, DARK_SPOT_HIGH, DARK_SPOT_MEDIUM. -/
inductive FinalFlag where
  | NORMAL
  | HOT_SPOT_HIGH
  | HOT_SPOT_MEDIUM
  | DARK_SPOT_HIGH
  | DARK_SPOT_MEDIUM
  deriving DecidableEq, Fintype, Repr

/-- Python substring test `'Hot' in f` on the five flag strings: true
exactly for Hot_High and Hot_Medium. -/
def ScoreFlag.hasHot : ScoreFlag → Bool
  | ScoreFlag.Hot_High => true
  | ScoreFlag.Hot_Medium => true
  | _ => false

/-- Python substring test `'Dark' in f` on the five flag strings: true
exactly for Dark_High and Dark_Medium. -/
def ScoreFlag.hasDark : ScoreFlag → Bool
  | ScoreFlag.Dark_High => true
  | ScoreFlag.Dark_Medium => true
  | _ => false

/-- The row-wise `decide` helper inside `combine_flags` (source lines
102 to 114): four guarded returns, first match wins, else NORMAL. -/
def decideFinal (z i : ScoreFlag) : FinalFlag :=
  if (z = ScoreFlag.Hot_High ∨ i = ScoreFlag.Hot_High) ∧ z.hasHot ∧ i.hasHot then
    FinalFlag.HOT_SPOT_HIGH
  else if (z = ScoreFlag.Dark_High ∨ i = ScoreFlag.Dark_High) ∧ z.hasDark ∧ i.hasDark then
    FinalFlag.DARK_SPOT_HIGH
  else if z.hasHot ∨ i.hasHot then
    FinalFlag.HOT_SPOT_MEDIUM
  else if z.hasDark ∨ i.hasDark then
    FinalFlag.DARK_SPOT_MEDIUM
  else
    FinalFlag.NORMAL

/-- Python substring test `'HIGH' in x` on the five final-flag strings. -/
def FinalFlag.hasHIGH : FinalFlag → Bool
  | FinalFlag.HOT_SPOT_HIGH => true
  | FinalFlag.DARK_SPOT_HIGH => true
  | _ => false

/-- Python substring test `'MEDIUM' in x` on the five final-flag strings. -/
def FinalFlag.hasMEDIUM : FinalFlag → Bool
  | FinalFlag.HOT_SPOT_MEDIUM => true
  | FinalFlag.DARK_SPOT_MEDIUM => true
  | _ => false

/-- Python substring test `'HOT' in x` on the five final-flag strings. -/
def FinalFlag.hasHOT : FinalFlag → Bool
  | FinalFlag.HOT_SPOT_HIGH => true
  | FinalFlag.HOT_SPOT_MEDIUM => true
  | _ => false

/-- Python substring test `'DARK' in x` on the five final-flag strings. -/
def FinalFlag.hasDARK : FinalFlag → Bool
  | FinalFlag.DARK_SPOT_HIGH => true
  | FinalFlag.DARK_SPOT_MEDIUM => true
  | _ => false

/-- Severity derivation of `combine_flags` (source lines 119 to 121):
High if the final flag contains HIGH, Medium if it contains MEDIUM,
else Normal. -/
def riskSeverityOf (f : FinalFlag) : String :=
  if f.hasHIGH then "High" else if f.hasMEDIUM then "Medium" else "Normal"

/-- Anomaly-type derivation of `combine_flags` (source lines 123 to 125):
Hot Spot if the final flag contains HOT, Dark Spot if it contains DARK,
else Normal. -/
def anomalyTypeOf (f : FinalFlag) : String :=
  if f.hasHOT then "Hot Spot" else if f.hasDARK then "Dark Spot" else "Normal"

/-- Specification-side reconciler, written from the words of claim C4:
rule 1 HOT_SPOT_HIGH when either flag equals Hot_High and both flags are
in the Hot category; rule 2 DARK_SPOT_HIGH when either flag equals
Dark_High and both are Dark; rule 3 HOT_SPOT_MEDIUM when either is Hot;
rule 4 DARK_SPOT_MEDIUM when either is Dark; else NORMAL; first match
wins. -/
def specCombine (z i : ScoreFlag) : FinalFlag :=
  if (z = ScoreFlag.Hot_High ∨ i = ScoreFlag.Hot_High) ∧ z.hasHot = true ∧ i.hasHot = true then
    FinalFlag.HOT_SPOT_HIGH
  else if (z = ScoreFlag.Dark_High ∨ i = ScoreFlag.Dark_High) ∧ z.hasDark = true ∧ i.hasDark = true then
    FinalFlag.DARK_SPOT_HIGH
  else if z.hasHot = true ∨ i.hasHot = true then
    FinalFlag.HOT_SPOT_MEDIUM
  else if z.hasDark = true ∨ i.hasDark = true then
    FinalFlag.DARK_SPOT_MEDIUM
  else
    FinalFlag.NORMAL

/-- Specification-side severity derivation, from the words of claim C4. -/
def specRisk (f : FinalFlag) : String :=
  if f.hasHIGH = true then "High" else if f.hasMEDIUM = true then "Medium" else "Normal"

/-- Specification-side anomaly-type derivation, from the words of claim C4. -/
def specAnomalyType (f : FinalFlag) : String :=
  if f.hasHOT = true then "Hot Spot" else if f.hasDARK = true then "Dark Spot" else "Normal"

/-- One cleaned data row.  `total_activity` is the derived metric
`enrolment_count + update_count` computed by `prepare_data`. -/
structure Record where
  state : String
  district : String
  time_period : String
  enrolment_count : ℚ
  update_count : ℚ
  total_activity : ℚ
  deriving DecidableEq, Repr

/-- A row after the z-score stage: the original record plus the `z_score`
and `z_flag` columns added by `calculate_zscore_flags`. -/
structure ZRec where
  base : Record
  z_score : ℝ
  z_flag : ScoreFlag

/-- A row after the IQR stage: the z-score columns plus the `iqr_flag`
column added by `calculate_iqr_flags`. -/
structure ZIRec where
  base : Record
  z_score : ℝ
  z_flag : ScoreFlag
  iqr_flag : ScoreFlag

/-- A fully reconciled row: all scorer columns plus `final_flag`,
`risk_severity` and `anomaly_type` added by `combine_flags`. -/
structure FinalRec where
  base : Record
  z_score : ℝ
  z_flag : ScoreFlag
  iqr_flag : ScoreFlag
  final_flag : FinalFlag
  risk_severity : String
  anomaly_type : String

/-- Arithmetic mean of a list of values, pandas `Series.mean`.  On the
empty list the junk value 0 results (pandas would give NaN; the engine
never takes the mean of an empty group). -/
def mean (xs : List ℚ) : ℚ := xs.sum / (xs.length : ℚ)

/-- Sample variance with one delta degree of freedom, the square of
pandas `Series.std`.  For a single value the quotient 0/0 collapses to
the junk value 0 (pandas would give NaN; the branch in
`calculate_zscore_flags` treats NaN and 0 alike, and the embedding's
branch condition agrees with the source's on every group). -/
def sampleVar (xs : List ℚ) : ℚ :=
  (xs.map (fun x => (x - mean xs) ^ 2)).sum / ((xs.length : ℚ) - 1)

/-- Sample standard deviation, pandas `Series.std`. -/
noncomputable def sampleStd (xs : List ℚ) : ℝ := Real.sqrt ((sampleVar xs : ℚ) : ℝ)

/-- The four `.loc` assignments on the `z_flag` column (source lines 63
to 67), executed in source order over the base value Normal.  Each `if`
is one assignment; a later matching assignment overwrites an earlier
one. -/
noncomputable def zFlagOf (z : ℝ) : ScoreFlag :=
  let f0 := ScoreFlag.Normal
  let f1 := if 3 ≤ z then ScoreFlag.Hot_High else f0
  let f2 := if 2 ≤ z ∧ z < 3 then ScoreFlag.Hot_Medium else f1
  let f3 := if z ≤ -3 then ScoreFlag.Dark_High else f2
  if z ≤ -2 ∧ -3 < z then ScoreFlag.Dark_Medium else f3

/-- The z-score stage `calculate_zscore_flags(group_df, metric_column)`
(source lines 52 to 69).  The source branches on
`std == 0 or np.isnan(std)`; pandas `std` is NaN exactly for groups of
at most one row, and in that case the exact `sampleVar` here is 0 by the
junk-value convention, so the single test `sd = 0` coincides with the
source's disjunction on every group. -/
noncomputable def calculate_zscore_flags (metric : Record → ℚ) (g : List Record) :
    List ZRec :=
  let xs := g.map metric
  let m : ℝ := ((mean xs : ℚ) : ℝ)
  let sd : ℝ := sampleStd xs
  if sd = 0 then
    g.map (fun r => { base := r, z_score := 0, z_flag := zFlagOf 0 })
  else
    g.map (fun r =>
      { base := r, z_score := (((metric r : ℚ) : ℝ) - m) / sd,
        z_flag := zFlagOf ((((metric r : ℚ) : ℝ) - m) / sd) })

/-- Ascending sort of the values, as pandas does internally before
interpolating a quantile. -/
def sortQ (xs : List ℚ) : List ℚ := xs.insertionSort (· ≤ ·)

/-- Linear interpolation into a sorted list at fractional position `h`:
the value at index floor h plus the fractional part times the gap to the
next value.  When floor h is the last index the next value is clipped to
it, as numpy does. -/
def interpAt (s : List ℚ) (h : ℚ) : ℚ :=
  let i : ℕ := (Int.floor h).toNat
  let lo := s.getD i 0
  let hi := s.getD (i + 1) lo
  lo + (h - (i : ℚ)) * (hi - lo)

/-- Pandas `Series.quantile(q)` with the default linear interpolation:
interpolate the sorted values at position (n - 1) * q. -/
def quantile (xs : List ℚ) (q : ℚ) : ℚ :=
  let s := sortQ xs
  if s.length = 0 then 0
  else interpAt s (((s.length - 1 : ℕ) : ℚ) * q)

/-- The four `.loc` assignments on the `iqr_flag` column (source lines
88 to 92), executed in source order over the base value Normal, with the
fences of lines 83 to 86.  Each `if` is one assignment; a later matching
assignment overwrites an earlier one. -/
def iqrFlagOf (q1 q3 v : ℚ) : ScoreFlag :=
  let iqr := q3 - q1
  let lower_medium := q1 - 3 / 2 * iqr
  let lower_high := q1 - 3 * iqr
  let upper_medium := q3 + 3 / 2 * iqr
  let upper_high := q3 + 3 * iqr
  let f0 := ScoreFlag.Normal
  let f1 := if upper_high ≤ v then ScoreFlag.Hot_High else f0
  let f2 := if upper_medium ≤ v ∧ v < upper_high then ScoreFlag.Hot_Medium else f1
  let f3 := if v ≤ lower_high then ScoreFlag.Dark_High else f2
  if v ≤ lower_medium ∧ lower_high < v then ScoreFlag.Dark_Medium else f3

/-- The IQR stage `calculate_iqr_flags(group_df, metric_column)` (source
lines 76 to 94): compute Q1, Q3 over the group's metric column and flag
each row. -/
def calculate_iqr_flags (metric : Record → ℚ) (zs : List ZRec) : List ZIRec :=
  let xs := zs.map (fun z => metric z.base)
  let q1 := quantile xs (1 / 4)
  let q3 := quantile xs (3 / 4)
  zs.map (fun z =>
    { base := z.base, z_score := z.z_score, z_flag := z.z_flag,
      iqr_flag := iqrFlagOf q1 q3 (metric z.base) })

/-- The reconciliation stage `combine_flags(df)` (source lines 101 to
127): apply the row-wise `decide` and derive severity and anomaly
type. -/
def combine_flags (df : List ZIRec) : List FinalRec :=
  df.map (fun x =>
    let ff := decideFinal x.z_flag x.iqr_flag
    { base := x.base, z_score := x.z_score, z_flag := x.z_flag, iqr_flag := x.iqr_flag,
      final_flag := ff, risk_severity := riskSeverityOf ff,
      anomaly_type := anomalyTypeOf ff })

/-- Failure modes of the pipeline: the schema check of `prepare_data`
(a ValueError whose message lists the missing column names) and the
ValueError pandas `concat` raises on an empty list of frames. -/
inductive PipeError where
  | schema (missing : List String)
  | concatError
  deriving DecidableEq, Repr

/-- The distinct group keys produced by `df.groupby('state')`, in the
ascending order pandas yields groups. -/
def groupKeys (df : List Record) : List String :=
  ((df.map Record.state).dedup).insertionSort (· ≤ ·)

/-- The groups produced by `df.groupby('state')`: for each distinct key,
the sub-table of rows carrying that key. -/
def groupsOf (df : List Record) : List (List Record) :=
  (groupKeys df).map (fun k => df.filter (fun r => r.state == k))

/-- The per-group body of the loop in `detect_anomalies` (source lines
137 to 141): z-score stage, then IQR stage, then reconciliation. -/
noncomputable def processGroup (metric : Record → ℚ) (g : List Record) : List FinalRec :=
  combine_flags (calculate_iqr_flags metric (calculate_zscore_flags metric g))

/-- The main pipeline `detect_anomalies(df, groupby_column='state',
metric='total_activity')` (source lines 134 to 143): process every group
and concatenate.  `pd.concat` raises a ValueError when the list of
per-group results is empty, which happens exactly when the cleaned
dataset is empty. -/
noncomputable def detect_anomalies (df : List Record) : Except PipeError (List FinalRec) :=
  let results := (groupsOf df).map (processGroup Record.total_activity)
  if results.isEmpty then Except.error PipeError.concatError
  else Except.ok results.flatten

/-- A raw input row.  The two count cells are modelled after
`pd.to_numeric(errors='coerce')`: `some q` for a cell that coerces to
the number q, `none` for a cell whose coercion fails (NaN). -/
structure RawRow where
  state : String
  district : String
  time_period : String
  enrolment_count : Option ℚ
  update_count : Option ℚ
  deriving DecidableEq, Repr

/-- A raw input table: its column names and its rows. -/
structure RawTable where
  cols : List String
  rows : List RawRow
  deriving DecidableEq, Repr

/-- The `required_cols` list of `prepare_data` (source lines 26 to 32). -/
def requiredCols : List String :=
  ["state", "district", "time_period", "enrolment_count", "update_count"]

/-- The list comprehension of source line 34: required columns absent
from the table, in required-column order. -/
def missingCols (t : RawTable) : List String :=
  requiredCols.filter (fun c => !(t.cols.contains c))

/-- Coercion and dropna for one row (source lines 39 to 44): keep the
row iff both counts are numeric, and derive `total_activity` as their
sum. -/
def cleanRow (row : RawRow) : Option Record :=
  match row.enrolment_count, row.update_count with
  | some e, some u =>
    some { state := row.state, district := row.district,
           time_period := row.time_period, enrolment_count := e,
           update_count := u, total_activity := e + u }
  | _, _ => none

/-- The preparation stage `prepare_data(df)` (source lines 13 to 45):
raise on missing required columns, else coerce, drop unusable rows and
derive the activity metric. -/
def prepare_data (t : RawTable) : Except PipeError (List Record) :=
  if missingCols t ≠ [] then Except.error (PipeError.schema (missingCols t))
  else Except.ok (t.rows.filterMap cleanRow)

/-- One output row of the flagged report, fields in the fixed column
order of source lines 162 to 174: state, district, time_period,
enrolment_count, update_count, total_activity, z_score, anomaly_type,
risk_severity, final_flag, recommendation. -/
structure ReportRow where
  state : String
  district : String
  time_period : String
  enrolment_count : ℚ
  update_count : ℚ
  total_activity : ℚ
  z_score : ℝ
  anomaly_type : String
  risk_severity : String
  final_flag : FinalFlag
  recommendation : String

/-- Build one report row (source lines 153 to 160).  `fmt` abstracts the
Python fixed-point rendering `abs(z):.2f` of a float to a string; the
recommendation text wraps `fmt` applied to the absolute z-score. -/
def toReportRow (fmt : ℝ → String) (r : FinalRec) : ReportRow :=
  { state := r.base.state, district := r.base.district,
    time_period := r.base.time_period,
    enrolment_count := r.base.enrolment_count,
    update_count := r.base.update_count,
    total_activity := r.base.total_activity, z_score := r.z_score,
    anomaly_type := r.anomaly_type, risk_severity := r.risk_severity,
    final_flag := r.final_flag,
    recommendation :=
      if r.anomaly_type = "Hot Spot" then
        "Activity " ++ fmt (abs r.z_score) ++
          " SD above state average – Review for abnormal spikes"
      else if r.anomaly_type = "Dark Spot" then
        "Activity " ++ fmt (abs r.z_score) ++
          " SD below state average – Check service availability"
      else "" }

/-- Sort key of `sort_values(['risk_severity', 'state', 'district'])`:
the lexicographic triple of the three string columns, compared by string
order. -/
def sortKeyOf (r : ReportRow) : Lex (String × Lex (String × String)) :=
  toLex (r.risk_severity, toLex (r.state, r.district))

/-- Row ordering of the final `sort_values` call: ascending in the
lexicographic key. -/
def reportLe (a b : ReportRow) : Prop := sortKeyOf a ≤ sortKeyOf b

instance : DecidableRel reportLe :=
  fun a b => inferInstanceAs (Decidable (sortKeyOf a ≤ sortKeyOf b))

instance : IsTotal ReportRow reportLe :=
  ⟨fun a b => le_total (sortKeyOf a) (sortKeyOf b)⟩

instance : IsTrans ReportRow reportLe :=
  ⟨fun _ _ _ h1 h2 => le_trans h1 h2⟩

/-- The report stage `generate_flagged_report(df)` (source lines 150 to
174): keep rows whose final flag differs from NORMAL, attach the
recommendation, select the fixed columns and sort ascending by
(risk_severity, state, district). -/
def generate_flagged_report (fmt : ℝ → String) (df : List FinalRec) : List ReportRow :=
  let flagged := df.filter (fun r => r.final_flag != FinalFlag.NORMAL)
  (flagged.map (toReportRow fmt)).insertionSort reportLe

/-- The execution entry point (source lines 185 to 218), restricted to
the engine stages: prepare, detect, report.  Errors abort the run before
the later stages. -/
noncomputable def fullPipeline (fmt : ℝ → String) (t : RawTable) :
    Except PipeError (List ReportRow) :=
  match prepare_data t with
  | Except.error e => Except.error e
  | Except.ok df =>
    match detect_anomalies df with
    | Except.error e => Except.error e
    | Except.ok res => Except.ok (generate_flagged_report fmt res)

/-- Specification-side z-flag classifier, written from the words of
claim C3: Hot_High iff the score is at least 3, Hot_Medium iff it is in
[2, 3), Dark_High iff it is at most -3, Dark_Medium iff it is in
(-3, -2], Normal otherwise. -/
noncomputable def specZFlag (z : ℝ) : ScoreFlag :=
  if 3 ≤ z then ScoreFlag.Hot_High
  else if 2 ≤ z ∧ z < 3 then ScoreFlag.Hot_Medium
  else if z ≤ -3 then ScoreFlag.Dark_High
  else if -3 < z ∧ z ≤ -2 then ScoreFlag.Dark_Medium
  else ScoreFlag.Normal

/-- Specification-side z-score of one record in a group, from the words
of claim C3: (value - mean) / stddev. -/
noncomputable def specZScore (metric : Record → ℚ) (g : List Record) (r : Record) : ℝ :=
  (((metric r : ℚ) : ℝ) - ((mean (g.map metric) : ℚ) : ℝ)) / sampleStd (g.map metric)

/-- Degenerate-group condition from the words of claim C3: group size at
most 1, or all metric values identical. -/
def degenerateGroup (metric : Record → ℚ) (g : List Record) : Prop :=
  g.length ≤ 1 ∨ ∀ a ∈ g.map metric, ∀ b ∈ g.map metric, a = b

instance (metric : Record → ℚ) (g : List Record) : Decidable (degenerateGroup metric g) := by
  unfold degenerateGroup; infer_instance

/-- IQR classifier exactly as claim C2 states it: the four fence
conditions with the claim's strictness, checked in the claim's
precedence order Hot_High, Hot_Medium, Dark_High, Dark_Medium, first
match wins. -/
def claimIqrFlag (q1 q3 v : ℚ) : ScoreFlag :=
  let iqr := q3 - q1
  if q3 + 3 * iqr ≤ v then ScoreFlag.Hot_High
  else if q3 + 3 / 2 * iqr ≤ v ∧ v < q3 + 3 * iqr then ScoreFlag.Hot_Medium
  else if v ≤ q1 - 3 * iqr then ScoreFlag.Dark_High
  else if q1 - 3 * iqr < v ∧ v ≤ q1 - 3 / 2 * iqr then ScoreFlag.Dark_Medium
  else ScoreFlag.Normal

/-- Amended IQR classifier: the same four fence conditions with the same
strictness, but with the single possible overlap (both the Hot_High and
the Dark_High condition hold, which requires IQR = 0 and v = Q1 = Q3)
resolved in favour of Dark_High, because in the source the Dark_High
assignment runs after the Hot_High one and overwrites it. -/
def amendedIqrFlag (q1 q3 v : ℚ) : ScoreFlag :=
  let iqr := q3 - q1
  if v ≤ q1 - 3 * iqr then ScoreFlag.Dark_High
  else if q3 + 3 * iqr ≤ v then ScoreFlag.Hot_High
  else if q3 + 3 / 2 * iqr ≤ v ∧ v < q3 + 3 * iqr then ScoreFlag.Hot_Medium
  else if q1 - 3 * iqr < v ∧ v ≤ q1 - 3 / 2 * iqr then ScoreFlag.Dark_Medium
  else ScoreFlag.Normal


/-- C4: for every pair of flags, the reconciler computes exactly the
first-match rule cascade of the specification, the severity and
anomaly-type derivations match the specification's substring rules, and
the result is a function of the flag pair alone (stated as: equal pairs
give equal results). -/
theorem combine_flags_matches_spec (z i : ScoreFlag) :
    decideFinal z i = specCombine z i ∧
    riskSeverityOf (decideFinal z i) = specRisk (specCombine z i) ∧
    anomalyTypeOf (decideFinal z i) = specAnomalyType (specCombine z i) ∧
    (∀ z2 i2 : ScoreFlag, z = z2 → i = i2 → decideFinal z i = decideFinal z2 i2) := by
  refine ⟨?_, ?_, ?_, ?_⟩
  · revert z i; decide
  · revert z i; decide
  · revert z i; decide
  · intro z2 i2 hz hi; rw [hz, hi]

/-- C4 witness: the reconciler agrees with the specification cascade at
the concrete pair (Hot_Medium, Dark_High), and determinism holds there. -/
theorem combine_flags_matches_spec_witness :
    decideFinal ScoreFlag.Hot_Medium ScoreFlag.Dark_High =
      specCombine ScoreFlag.Hot_Medium ScoreFlag.Dark_High ∧
    decideFinal ScoreFlag.Hot_Medium ScoreFlag.Dark_High =
      decideFinal ScoreFlag.Hot_Medium ScoreFlag.Dark_High :=
  ⟨(combine_flags_matches_spec ScoreFlag.Hot_Medium ScoreFlag.Dark_High).1,
    (combine_flags_matches_spec ScoreFlag.Hot_Medium ScoreFlag.Dark_High).2.2.2
      ScoreFlag.Hot_Medium ScoreFlag.Dark_High rfl rfl⟩

/-- C5 counterexample: on the pair (z = Hot_Medium, iqr = Hot_High) the
reconciler returns HOT_SPOT_HIGH, not HOT_SPOT_MEDIUM as the claim
states: rule 1 fires because one flag equals Hot_High and both flags are
in the Hot category. -/
theorem decideFinal_hotMedium_hotHigh_not_medium :
    decideFinal ScoreFlag.Hot_Medium ScoreFlag.Hot_High ≠ FinalFlag.HOT_SPOT_MEDIUM := by
  decide

/-- C5 amended: on the pair (z = Hot_Medium, iqr = Hot_High) the
reconciler returns HOT_SPOT_HIGH via rule 1, since one flag equals
Hot_High and both flags' category is Hot. -/
theorem decideFinal_hotMedium_hotHigh :
    decideFinal ScoreFlag.Hot_Medium ScoreFlag.Hot_High = FinalFlag.HOT_SPOT_HIGH := by
  decide

/-- Helper: the missing-column list is empty exactly when every required
column is present. -/
theorem missingCols_eq_nil_iff (t : RawTable) :
    missingCols t = [] ↔ ∀ c ∈ requiredCols, c ∈ t.cols := by
  simp [missingCols, List.filter_eq_nil_iff]

/-- Helper: membership in the missing-column list. -/
theorem mem_missingCols_iff (t : RawTable) (c : String) :
    c ∈ missingCols t ↔ c ∈ requiredCols ∧ c ∉ t.cols := by
  simp [missingCols, List.mem_filter]

/-- C7: `prepare_data` fails exactly when a required column is absent,
its error payload enumerates the missing column names, such a failure
also aborts the full pipeline before any scoring, and when every
required column is present it succeeds, returning exactly the rows that
survive numeric coercion (a row is kept iff both of its count cells are
numeric, with total_activity derived as their sum; rows with a failing
cell are silently dropped). -/
theorem prepare_data_spec (t : RawTable) (fmt : ℝ → String) :
    ((∃ e, prepare_data t = Except.error e) ↔ ¬ ∀ c ∈ requiredCols, c ∈ t.cols) ∧
    (missingCols t ≠ [] →
      prepare_data t = Except.error (PipeError.schema (missingCols t)) ∧
      fullPipeline fmt t = Except.error (PipeError.schema (missingCols t))) ∧
    (∀ c, c ∈ missingCols t ↔ c ∈ requiredCols ∧ c ∉ t.cols) ∧
    ((∀ c ∈ requiredCols, c ∈ t.cols) →
      prepare_data t = Except.ok (t.rows.filterMap cleanRow)) ∧
    (∀ l, prepare_data t = Except.ok l →
      (∀ x ∈ l, ∃ row ∈ t.rows, cleanRow row = some x) ∧
      (∀ row ∈ t.rows, ∀ e u, row.enrolment_count = some e →
        row.update_count = some u →
        ({ state := row.state, district := row.district,
           time_period := row.time_period, enrolment_count := e,
           update_count := u, total_activity := e + u } : Record) ∈ l)) := by
  by_cases hm : missingCols t = []
  · refine ⟨?_, fun hne => absurd hm hne, mem_missingCols_iff t, ?_, ?_⟩
    · constructor
      · rintro ⟨e, he⟩
        rw [prepare_data, if_neg (not_not_intro hm)] at he
        cases he
      · intro hall
        exact absurd ((missingCols_eq_nil_iff t).mp hm) hall
    · intro _; simp [prepare_data, hm]
    · intro l hl
      rw [prepare_data, if_neg (not_not_intro hm)] at hl
      cases hl
      constructor
      · intro x hx
        exact List.mem_filterMap.mp hx
      · intro row hrow e u he hu
        refine List.mem_filterMap.mpr ⟨row, hrow, ?_⟩
        rw [cleanRow, he, hu]
  · refine ⟨?_, fun _ => ?_, mem_missingCols_iff t, ?_, ?_⟩
    · constructor
      · intro _
        exact fun hall => hm ((missingCols_eq_nil_iff t).mpr hall)
      · intro _
        exact ⟨PipeError.schema (missingCols t), by simp [prepare_data, hm]⟩
    · constructor
      · simp [prepare_data, hm]
      · simp [fullPipeline, prepare_data, hm]
    · intro hall
      exact absurd ((missingCols_eq_nil_iff t).mpr hall) hm
    · intro l hl
      rw [prepare_data, if_pos hm] at hl
      cases hl

/-- C7 witness: a concrete table missing the district and time_period
columns fails with a SchemaError listing exactly those two columns and
aborts the pipeline, while a concrete complete table succeeds, keeps its
coercible row with the derived total and drops its non-coercible row. -/
theorem prepare_data_spec_witness :
    (prepare_data { cols := ["state", "enrolment_count", "update_count"], rows := [] } =
      Except.error (PipeError.schema ["district", "time_period"]) ∧
     fullPipeline (fun _ => "") { cols := ["state", "enrolment_count", "update_count"], rows := [] } =
      Except.error (PipeError.schema ["district", "time_period"])) ∧
    prepare_data
      { cols := ["state", "district", "time_period", "enrolment_count", "update_count"],
        rows := [{ state := "A", district := "D1", time_period := "t",
                   enrolment_count := some 3, update_count := some 4 },
                 { state := "A", district := "D2", time_period := "t",
                   enrolment_count := none, update_count := some 7 }] } =
      Except.ok [{ state := "A", district := "D1", time_period := "t",
                   enrolment_count := 3, update_count := 4, total_activity := 7 }] := by
  constructor
  · have h := (prepare_data_spec
      { cols := ["state", "enrolment_count", "update_count"], rows := [] }
      (fun _ => "")).2.1 (by decide)
    have hmiss : missingCols
        { cols := ["state", "enrolment_count", "update_count"], rows := [] } =
        ["district", "time_period"] := by decide
    rw [hmiss] at h
    exact h
  · have h := (prepare_data_spec
      { cols := ["state", "district", "time_period", "enrolment_count", "update_count"],
        rows := [{ state := "A", district := "D1", time_period := "t",
                   enrolment_count := some 3, update_count := some 4 },
                 { state := "A", district := "D2", time_period := "t",
                   enrolment_count := none, update_count := some 7 }] }
      (fun _ => "")).2.2.2.1 (by decide)
    rw [h]
    with_unfolding_all rfl

/-- C10: on an empty cleaned dataset the detection pass raises the
concatenation error instead of returning an empty result, because the
group partitioner yields no groups and hence an empty list of per-group
frames is concatenated. -/
theorem detect_anomalies_empty_raises :
    detect_anomalies ([] : List Record) = Except.error PipeError.concatError ∧
    groupsOf ([] : List Record) = [] := by
  exact ⟨rfl, rfl⟩

/-- C9: the full pipeline is a deterministic function of its input
table: two runs on the same input, with no other state, produce the same
output. -/
theorem fullPipeline_deterministic (fmt : ℝ → String) (t : RawTable)
    (r1 r2 : Except PipeError (List ReportRow))
    (h1 : r1 = fullPipeline fmt t) (h2 : r2 = fullPipeline fmt t) : r1 = r2 :=
  h1.trans h2.symm

/-- C9 witness: two runs on a concrete one-column table coincide. -/
theorem fullPipeline_deterministic_witness :
    fullPipeline (fun _ => "") { cols := ["state"], rows := [] } =
      fullPipeline (fun _ => "") { cols := ["state"], rows := [] } :=
  fullPipeline_deterministic (fun _ => "") { cols := ["state"], rows := [] }
    (fullPipeline (fun _ => "") { cols := ["state"], rows := [] })
    (fullPipeline (fun _ => "") { cols := ["state"], rows := [] }) rfl rfl

/-- Helper: a sum of nonnegative rationals vanishes iff every term
vanishes. -/
theorem sum_of_nonneg_eq_zero_iff (l : List ℚ) (h : ∀ x ∈ l, 0 ≤ x) :
    l.sum = 0 ↔ ∀ x ∈ l, x = 0 := by
  induction l with
  | nil => simp
  | cons a t ih =>
    have ha : 0 ≤ a := h a (List.mem_cons_self a t)
    have ht : ∀ x ∈ t, 0 ≤ x := fun x hx => h x (List.mem_cons_of_mem a hx)
    have hts : 0 ≤ t.sum := List.sum_nonneg ht
    simp only [List.sum_cons, List.mem_cons]
    constructor
    · intro h0
      have ha0 : a = 0 := by linarith
      have hs0 : t.sum = 0 := by linarith
      intro x hx
      rcases hx with rfl | hx
      · exact ha0
      · exact ((ih ht).mp hs0) x hx
    · intro hall
      have ha0 : a = 0 := hall a (Or.inl rfl)
      have hs0 : t.sum = 0 := (ih ht).mpr (fun x hx => hall x (Or.inr hx))
      rw [ha0, hs0, add_zero]

/-- Helper: the sum of a constant list. -/
theorem sum_const_list (xs : List ℚ) (c : ℚ) (h : ∀ a ∈ xs, a = c) :
    xs.sum = (xs.length : ℚ) * c := by
  induction xs with
  | nil => simp
  | cons a t ih =>
    have ha : a = c := h a (List.mem_cons_self a t)
    have ht : t.sum = (t.length : ℚ) * c :=
      ih (fun x hx => h x (List.mem_cons_of_mem a hx))
    simp only [List.sum_cons, List.length_cons, ha, ht]
    push_cast
    ring

/-- Helper: the mean of a nonempty constant list is that constant. -/
theorem mean_const (xs : List ℚ) (c : ℚ) (hne : xs ≠ []) (h : ∀ a ∈ xs, a = c) :
    mean xs = c := by
  have hl : (xs.length : ℚ) ≠ 0 := by
    have h0 : xs.length ≠ 0 := fun h0 => hne (List.length_eq_zero.mp h0)
    exact_mod_cast h0
  rw [mean, sum_const_list xs c h, mul_comm, mul_div_assoc, div_self hl, mul_one]

/-- Helper: the sample variance is nonnegative. -/
theorem sampleVar_nonneg (xs : List ℚ) : 0 ≤ sampleVar xs := by
  rcases xs with _ | ⟨a, t⟩
  · simp [sampleVar]
  · apply div_nonneg
    · apply List.sum_nonneg
      intro y hy
      obtain ⟨x, _, rfl⟩ := List.mem_map.mp hy
      positivity
    · have h1 : (1 : ℚ) ≤ (((a :: t).length : ℕ) : ℚ) := by
        exact_mod_cast Nat.succ_le_succ (Nat.zero_le t.length)
      linarith

/-- Helper: the sample variance vanishes exactly on the degenerate
groups: size at most one, or all values identical. -/
theorem sampleVar_eq_zero_iff (xs : List ℚ) :
    sampleVar xs = 0 ↔ (xs.length ≤ 1 ∨ ∀ a ∈ xs, ∀ b ∈ xs, a = b) := by
  constructor
  · intro h0
    by_cases hn : xs.length ≤ 1
    · exact Or.inl hn
    · right
      push_neg at hn
      have hden : ((xs.length : ℚ) - 1) ≠ 0 := by
        have h1 : (1 : ℚ) < (xs.length : ℚ) := by exact_mod_cast hn
        linarith
      rw [sampleVar, div_eq_zero_iff] at h0
      rcases h0 with h0 | h0
      · have hz := (sum_of_nonneg_eq_zero_iff (xs.map (fun x => (x - mean xs) ^ 2))
          (by
            intro y hy
            obtain ⟨x, _, rfl⟩ := List.mem_map.mp hy
            positivity)).mp h0
        have hmx : ∀ a ∈ xs, a = mean xs := by
          intro a ha
          have hsq : (a - mean xs) ^ 2 = 0 :=
            hz ((a - mean xs) ^ 2) (List.mem_map_of_mem _ ha)
          have hz2 : a - mean xs = 0 := by
            exact sq_eq_zero_iff.mp hsq
          linarith
        intro a ha b hb
        rw [hmx a ha, hmx b hb]
      · exact absurd h0 hden
  · intro h
    rcases h with hn | hall
    · rcases Nat.le_one_iff_eq_zero_or_eq_one.mp hn with h0 | h1
      · have hxs : xs = [] := List.length_eq_zero.mp h0
        subst hxs
        simp [sampleVar]
      · rw [sampleVar, h1]
        norm_num
    · by_cases hne : xs = []
      · subst hne
        simp [sampleVar]
      · obtain ⟨y, hy⟩ := List.exists_mem_of_ne_nil xs hne
        have hmean : mean xs = y := mean_const xs y hne (fun a ha => hall a ha y hy)
        have hc : ∀ a ∈ xs, a = mean xs := by
          intro a ha
          rw [hmean]
          exact hall a ha y hy
        have hzero : (xs.map (fun x => (x - mean xs) ^ 2)).sum = 0 := by
          apply List.sum_eq_zero
          intro y2 hy2
          obtain ⟨x, hx, rfl⟩ := List.mem_map.mp hy2
          rw [hc x hx]
          ring
        rw [sampleVar, hzero, zero_div]

/-- Helper: the sample standard deviation vanishes iff the sample
variance does. -/
theorem sampleStd_eq_zero_iff (xs : List ℚ) :
    sampleStd xs = 0 ↔ sampleVar xs = 0 := by
  rw [sampleStd, Real.sqrt_eq_zero']
  constructor
  · intro h
    have h2 : sampleVar xs ≤ 0 := by exact_mod_cast h
    exact le_antisymm h2 (sampleVar_nonneg xs)
  · intro h
    rw [h]
    simp

/-- Helper: a zero z-score column is flagged Normal by the four `.loc`
assignments. -/
theorem zFlagOf_zero : zFlagOf 0 = ScoreFlag.Normal := by
  unfold zFlagOf
  norm_num

/-- Helper: the four sequential z-flag assignments of the source
coincide with the specification's first-match classifier, because the
four threshold conditions are pairwise disjoint. -/
theorem zFlagOf_eq_specZFlag (z : ℝ) : zFlagOf z = specZFlag z := by
  unfold zFlagOf specZFlag
  rcases le_or_lt 3 z with h3 | h3
  · have hnm : ¬(2 ≤ z ∧ z < 3) := fun h => absurd h.2 (not_lt.mpr h3)
    have hdh : ¬(z ≤ -3) := by intro h; linarith
    have hdm : ¬(z ≤ -2 ∧ -3 < z) := fun h => by linarith [h.1]
    simp only [if_pos h3, if_neg hnm, if_neg hdh, if_neg hdm]
  · rcases le_or_lt 2 z with h2 | h2
    · have hm : 2 ≤ z ∧ z < 3 := ⟨h2, h3⟩
      have hh : ¬(3 ≤ z) := not_le.mpr h3
      have hdh : ¬(z ≤ -3) := by intro h; linarith
      have hdm : ¬(z ≤ -2 ∧ -3 < z) := fun h => by linarith [h.1]
      simp only [if_pos hm, if_neg hh, if_neg hdh, if_neg hdm]
    · rcases le_or_lt z (-3) with hd3 | hd3
      · have hh : ¬(3 ≤ z) := by intro h; linarith
        have hm : ¬(2 ≤ z ∧ z < 3) := fun h => by linarith [h.1]
        have hdm : ¬(z ≤ -2 ∧ -3 < z) := fun h => by linarith [h.2]
        simp only [if_pos hd3, if_neg hh, if_neg hm, if_neg hdm]
      · rcases le_or_lt z (-2) with hd2 | hd2
        · have hdm : z ≤ -2 ∧ -3 < z := ⟨hd2, hd3⟩
          have hdm2 : -3 < z ∧ z ≤ -2 := ⟨hd3, hd2⟩
          have hh : ¬(3 ≤ z) := by intro h; linarith
          have hm : ¬(2 ≤ z ∧ z < 3) := fun h => by linarith [h.1]
          have hdh : ¬(z ≤ -3) := not_le.mpr hd3
          simp only [if_pos hdm, if_pos hdm2, if_neg hh, if_neg hm, if_neg hdh]
        · have hh : ¬(3 ≤ z) := by intro h; linarith
          have hm : ¬(2 ≤ z ∧ z < 3) := fun h => absurd h.1 (not_le.mpr (by linarith))
          have hdh : ¬(z ≤ -3) := not_le.mpr hd3
          have hdm : ¬(z ≤ -2 ∧ -3 < z) := fun h => absurd h.1 (not_le.mpr hd2)
          have hdm2 : ¬(-3 < z ∧ z ≤ -2) := fun h => absurd h.2 (not_le.mpr hd2)
          simp only [if_neg hh, if_neg hm, if_neg hdh, if_neg hdm, if_neg hdm2]

/-- C3: the z-score stage assigns, to every record of every group,
score 0 and flag Normal when the group is degenerate (size at most 1 or
all metric values identical, equivalently zero or undefined standard
deviation), and otherwise score (value - mean) / stddev with the flag
given by the specification's threshold classifier. -/
theorem zscore_scorer_spec (metric : Record → ℚ) (g : List Record) :
    calculate_zscore_flags metric g =
      if degenerateGroup metric g then
        g.map (fun r => { base := r, z_score := 0, z_flag := ScoreFlag.Normal })
      else
        g.map (fun r => { base := r, z_score := specZScore metric g r,
                          z_flag := specZFlag (specZScore metric g r) }) := by
  have hvar : sampleVar (g.map metric) = 0 ↔ degenerateGroup metric g := by
    rw [sampleVar_eq_zero_iff]
    unfold degenerateGroup
    rw [List.length_map]
  by_cases hd : degenerateGroup metric g
  · have hv : sampleVar (g.map metric) = 0 := hvar.mpr hd
    have hs : sampleStd (g.map metric) = 0 := by
      rw [sampleStd, hv]
      simp
    rw [if_pos hd]
    simp only [calculate_zscore_flags]
    rw [if_pos hs]
    simp [zFlagOf_zero]
  · have hv : sampleVar (g.map metric) ≠ 0 := fun h => hd (hvar.mp h)
    have hs : sampleStd (g.map metric) ≠ 0 :=
      fun h => hv ((sampleStd_eq_zero_iff (g.map metric)).mp h)
    rw [if_neg hd]
    simp only [calculate_zscore_flags]
    rw [if_neg hs]
    simp only [specZScore, zFlagOf_eq_specZFlag]

/-- Helper: the sample variance of a one-element list is 0 by the
junk-value convention (division by n - 1 = 0). -/
theorem sampleVar_singleton (v : ℚ) : sampleVar [v] = 0 := by
  simp [sampleVar]

/-- Helper: the sample standard deviation of a one-element list is 0. -/
theorem sampleStd_singleton (v : ℚ) : sampleStd [v] = 0 := by
  rw [sampleStd, sampleVar_singleton]
  simp

/-- Helper: every quantile of a one-element list is its element. -/
theorem quantile_singleton (v q : ℚ) : quantile [v] q = v := by
  simp [quantile, sortQ, List.insertionSort, List.orderedInsert, interpAt]

/-- Helper: when the quartiles coincide with the value (total fence
collapse), the last matching assignment leaves Dark_High. -/
theorem iqrFlagOf_diag (v : ℚ) : iqrFlagOf v v v = ScoreFlag.Dark_High := by
  simp [iqrFlagOf]

/-- Helper: the scorer cascade on a one-record group: zero z-score with
flag Normal, iqr flag Dark_High from the fence collapse, reconciled to
DARK_SPOT_MEDIUM. -/
theorem processGroup_singleton (metric : Record → ℚ) (r : Record) :
    processGroup metric [r] =
      [{ base := r, z_score := 0, z_flag := ScoreFlag.Normal,
         iqr_flag := ScoreFlag.Dark_High,
         final_flag := FinalFlag.DARK_SPOT_MEDIUM,
         risk_severity := "Medium", anomaly_type := "Dark Spot" }] := by
  have h1 : calculate_zscore_flags metric [r] =
      [{ base := r, z_score := 0, z_flag := ScoreFlag.Normal }] := by
    simp only [calculate_zscore_flags, List.map_cons, List.map_nil]
    rw [if_pos (sampleStd_singleton (metric r))]
    simp [zFlagOf_zero]
  have h2 : calculate_iqr_flags metric
      [{ base := r, z_score := 0, z_flag := ScoreFlag.Normal }] =
      [{ base := r, z_score := 0, z_flag := ScoreFlag.Normal,
         iqr_flag := ScoreFlag.Dark_High }] := by
    simp only [calculate_iqr_flags, List.map_cons, List.map_nil]
    rw [quantile_singleton, quantile_singleton, iqrFlagOf_diag]
  unfold processGroup
  rw [h1, h2]
  rfl

/-- Helper: a one-record dataset forms a single one-record group. -/
theorem groupsOf_singleton (r : Record) : groupsOf [r] = [[r]] := by
  simp [groupsOf, groupKeys, List.insertionSort, List.orderedInsert,
    List.filter_cons, List.filter_nil]

/-- Helper: full detection output on a one-record dataset. -/
theorem detect_anomalies_singleton (r : Record) :
    detect_anomalies [r] =
      Except.ok [{ base := r, z_score := 0, z_flag := ScoreFlag.Normal,
                   iqr_flag := ScoreFlag.Dark_High,
                   final_flag := FinalFlag.DARK_SPOT_MEDIUM,
                   risk_severity := "Medium", anomaly_type := "Dark Spot" }] := by
  unfold detect_anomalies
  rw [groupsOf_singleton, List.map_cons, List.map_nil,
    processGroup_singleton Record.total_activity r]
  rfl

/-- C1 counterexample: on the concrete one-record dataset below the
pipeline raises no error and gives z-score 0, but the reconciled flag is
DARK_SPOT_MEDIUM, not NORMAL, so the claimed NORMAL verdict for
singleton groups is false. -/
theorem singleton_group_counterexample :
    (detect_anomalies
        [({ state := "Assam", district := "Barpeta", time_period := "2023-01",
            enrolment_count := 10, update_count := 5,
            total_activity := 15 } : Record)]).map
      (List.map FinalRec.final_flag) =
      Except.ok [FinalFlag.DARK_SPOT_MEDIUM] ∧
    FinalFlag.DARK_SPOT_MEDIUM ≠ FinalFlag.NORMAL := by
  constructor
  · rw [detect_anomalies_singleton]
    rfl
  · decide

/-- C1 amended: a group of one record raises no error and receives
z-score exactly 0 with z-flag Normal; but the total fence collapse makes
the last IQR assignment win, giving iqr flag Dark_High, so the record
reconciles to DARK_SPOT_MEDIUM (severity Medium, Dark Spot) and appears
in the flagged report as its single row. -/
theorem singleton_group_behaviour (r : Record) (fmt : ℝ → String) :
    detect_anomalies [r] =
      Except.ok [{ base := r, z_score := 0, z_flag := ScoreFlag.Normal,
                   iqr_flag := ScoreFlag.Dark_High,
                   final_flag := FinalFlag.DARK_SPOT_MEDIUM,
                   risk_severity := "Medium", anomaly_type := "Dark Spot" }] ∧
    generate_flagged_report fmt
      [{ base := r, z_score := 0, z_flag := ScoreFlag.Normal,
         iqr_flag := ScoreFlag.Dark_High,
         final_flag := FinalFlag.DARK_SPOT_MEDIUM,
         risk_severity := "Medium", anomaly_type := "Dark Spot" }] =
      [toReportRow fmt
        { base := r, z_score := 0, z_flag := ScoreFlag.Normal,
          iqr_flag := ScoreFlag.Dark_High,
          final_flag := FinalFlag.DARK_SPOT_MEDIUM,
          risk_severity := "Medium", anomaly_type := "Dark Spot" }] :=
  ⟨detect_anomalies_singleton r, rfl⟩

/-- Helper: counting a record in one key's sub-table. -/
theorem count_filter_key (df : List Record) (k : String) (r : Record) :
    (df.filter (fun x => x.state == k)).count r =
      if r.state = k then df.count r else 0 := by
  by_cases hr : r.state = k
  · rw [if_pos hr]
    exact List.count_filter (by simp [hr])
  · rw [if_neg hr]
    rw [List.count_eq_zero]
    intro hmem
    exact hr (by simpa using (List.mem_filter.mp hmem).2)

/-- Helper: counting a record across the sub-tables of a duplicate-free
key list. -/
theorem count_flatten_filter (K : List String) (df : List Record) (r : Record)
    (hK : K.Nodup) :
    ((K.map (fun k => df.filter (fun x => x.state == k))).flatten).count r =
      if r.state ∈ K then df.count r else 0 := by
  induction K with
  | nil => simp
  | cons k K ih =>
    obtain ⟨hk, hK2⟩ := List.nodup_cons.mp hK
    simp only [List.map_cons, List.flatten_cons, List.count_append,
      count_filter_key, ih hK2]
    by_cases hr : r.state = k
    · have hnot : r.state ∉ K := hr ▸ hk
      rw [if_pos hr, if_neg hnot, if_pos (hr ▸ List.mem_cons_self k K), add_zero]
    · rw [if_neg hr, zero_add]
      by_cases hm : r.state ∈ K
      · rw [if_pos hm, if_pos (List.mem_cons_of_mem k hm)]
      · rw [if_neg hm, if_neg (by simp [hr, hm])]

/-- Helper: every record's state occurs among the group keys. -/
theorem state_mem_groupKeys {df : List Record} {r : Record} (h : r ∈ df) :
    r.state ∈ groupKeys df := by
  rw [groupKeys, List.mem_insertionSort, List.mem_dedup]
  exact List.mem_map_of_mem Record.state h

/-- Helper: the group keys are duplicate-free. -/
theorem groupKeys_nodup (df : List Record) : (groupKeys df).Nodup :=
  (List.perm_insertionSort (· ≤ ·) ((df.map Record.state).dedup)).symm.nodup
    (List.nodup_dedup (df.map Record.state))

/-- Helper: counting a record across all groups equals counting it in
the dataset. -/
theorem count_flatten_groupsOf (df : List Record) (r : Record) :
    ((groupsOf df).flatten).count r = df.count r := by
  rw [groupsOf, count_flatten_filter (groupKeys df) df r (groupKeys_nodup df)]
  by_cases h : r.state ∈ groupKeys df
  · rw [if_pos h]
  · rw [if_neg h]
    symm
    rw [List.count_eq_zero]
    intro hr
    exact h (state_mem_groupKeys hr)

/-- Helper: each pipeline stage adds columns but keeps the underlying
records of a group, in order. -/
theorem processGroup_map_base (metric : Record → ℚ) (g : List Record) :
    (processGroup metric g).map FinalRec.base = g := by
  unfold processGroup combine_flags calculate_iqr_flags calculate_zscore_flags
  by_cases h : sampleStd (g.map metric) = 0
  · simp [h, List.map_map, Function.comp_def]
  · simp [h, List.map_map, Function.comp_def]

/-- Helper: on a successful detection run, counting by underlying record
in the output matches the cleaned dataset. -/
theorem detect_output_count (df : List Record) (out : List FinalRec)
    (h : detect_anomalies df = Except.ok out) (r : Record) :
    (out.map FinalRec.base).count r = df.count r := by
  unfold detect_anomalies at h
  by_cases he : ((groupsOf df).map (processGroup Record.total_activity)).isEmpty
  · rw [if_pos he] at h
    cases h
  · rw [if_neg he] at h
    injection h with h2
    subst h2
    rw [List.map_flatten, List.map_map]
    have hfun : (List.map FinalRec.base ∘ processGroup Record.total_activity) = id := by
      funext g
      exact processGroup_map_base Record.total_activity g
    rw [hfun, List.map_id, count_flatten_groupsOf]

/-- C6: grouping by state is a true partition of the cleaned dataset:
the concatenation of all groups is a permutation of the dataset (so
every record, with multiplicity, belongs to exactly one group), groups
are pairwise disjoint, every record lies in some group, every group
member comes from the dataset, and consequently a successful detection
pass emits every cleaned record exactly once. -/
theorem partition_invariant (df : List Record) :
    ((groupsOf df).flatten).Perm df ∧
    List.Pairwise (fun g1 g2 => ∀ r, r ∈ g1 → r ∉ g2) (groupsOf df) ∧
    (∀ r ∈ df, ∃ g ∈ groupsOf df, r ∈ g) ∧
    (∀ g ∈ groupsOf df, ∀ r, r ∈ g → r ∈ df) ∧
    (∀ out, detect_anomalies df = Except.ok out →
      ∀ r : Record, (out.map FinalRec.base).count r = df.count r) := by
  have hperm : ((groupsOf df).flatten).Perm df :=
    List.perm_iff_count.mpr (count_flatten_groupsOf df)
  refine ⟨hperm, ?_, ?_, ?_, fun out h r => detect_output_count df out h r⟩
  · rw [groupsOf, List.pairwise_map]
    apply List.Pairwise.imp ?_ (groupKeys_nodup df)
    intro k1 k2 hne r hr1 hr2
    have h1 : r.state = k1 := by simpa using (List.mem_filter.mp hr1).2
    have h2 : r.state = k2 := by simpa using (List.mem_filter.mp hr2).2
    exact hne (h1 ▸ h2)
  · intro r hr
    exact List.mem_flatten.mp (hperm.mem_iff.mpr hr)
  · intro g hg r hrg
    rw [groupsOf] at hg
    obtain ⟨k, _, rfl⟩ := List.mem_map.mp hg
    exact (List.mem_filter.mp hrg).1

/-- C6 witness: on a concrete one-record dataset, a successful detection
run emits the record exactly as often as the dataset holds it. -/
theorem partition_invariant_witness :
    ([({ base := { state := "Kerala", district := "Idukki", time_period := "2023-02",
                    enrolment_count := 2, update_count := 3, total_activity := 5 },
          z_score := 0, z_flag := ScoreFlag.Normal,
          iqr_flag := ScoreFlag.Dark_High,
          final_flag := FinalFlag.DARK_SPOT_MEDIUM,
          risk_severity := "Medium", anomaly_type := "Dark Spot" } : FinalRec)].map
        FinalRec.base).count
      ({ state := "Kerala", district := "Idukki", time_period := "2023-02",
         enrolment_count := 2, update_count := 3, total_activity := 5 } : Record) =
    List.count
      ({ state := "Kerala", district := "Idukki", time_period := "2023-02",
         enrolment_count := 2, update_count := 3, total_activity := 5 } : Record)
      [({ state := "Kerala", district := "Idukki", time_period := "2023-02",
          enrolment_count := 2, update_count := 3, total_activity := 5 } : Record)] :=
  (partition_invariant
    [{ state := "Kerala", district := "Idukki", time_period := "2023-02",
       enrolment_count := 2, update_count := 3, total_activity := 5 }]).2.2.2.2
    _ (detect_anomalies_singleton _) _

/-- Helper: the report ordering spelt out: ascending lexicographically
in risk_severity, then state, then district, each compared as strings. -/
theorem reportLe_iff (a b : ReportRow) :
    reportLe a b ↔
      (a.risk_severity < b.risk_severity ∨
        (a.risk_severity = b.risk_severity ∧
          (a.state < b.state ∨ (a.state = b.state ∧ a.district ≤ b.district)))) := by
  rw [reportLe, sortKeyOf, sortKeyOf, Prod.Lex.le_iff]
  constructor
  · rintro (h | ⟨heq, hin⟩)
    · exact Or.inl h
    · exact Or.inr ⟨heq, (Prod.Lex.le_iff _ _).mp hin⟩
  · rintro (h | ⟨heq, hin⟩)
    · exact Or.inl h
    · exact Or.inr ⟨heq, (Prod.Lex.le_iff _ _).mpr hin⟩

/-- C8: the flagged report consists of exactly the reconciled records
whose final flag differs from NORMAL (one output row per such record,
produced by the fixed 11-column row builder; NORMAL records are
excluded, every non-NORMAL record is included), and it is sorted
ascending by the lexicographic string tuple
(risk_severity, state, district). -/
theorem report_generator_spec (fmt : ℝ → String) (df : List FinalRec) :
    (generate_flagged_report fmt df).Perm
      ((df.filter (fun r => r.final_flag != FinalFlag.NORMAL)).map (toReportRow fmt)) ∧
    List.Sorted reportLe (generate_flagged_report fmt df) ∧
    (∀ row ∈ generate_flagged_report fmt df, row.final_flag ≠ FinalFlag.NORMAL) ∧
    (∀ row ∈ generate_flagged_report fmt df,
      ∃ r ∈ df, r.final_flag ≠ FinalFlag.NORMAL ∧ row = toReportRow fmt r) ∧
    (∀ r ∈ df, r.final_flag ≠ FinalFlag.NORMAL →
      toReportRow fmt r ∈ generate_flagged_report fmt df) ∧
    (∀ a b : ReportRow, reportLe a b ↔
      (a.risk_severity < b.risk_severity ∨
        (a.risk_severity = b.risk_severity ∧
          (a.state < b.state ∨ (a.state = b.state ∧ a.district ≤ b.district))))) := by
  have hperm : (generate_flagged_report fmt df).Perm
      ((df.filter (fun r => r.final_flag != FinalFlag.NORMAL)).map (toReportRow fmt)) :=
    List.perm_insertionSort reportLe _
  refine ⟨hperm, List.sorted_insertionSort reportLe _, ?_, ?_, ?_, reportLe_iff⟩
  · intro row hrow
    obtain ⟨r, hr, rfl⟩ := List.mem_map.mp (hperm.mem_iff.mp hrow)
    have hflag := (List.mem_filter.mp hr).2
    simpa [toReportRow] using hflag
  · intro row hrow
    obtain ⟨r, hr, rfl⟩ := List.mem_map.mp (hperm.mem_iff.mp hrow)
    obtain ⟨hrdf, hflag⟩ := List.mem_filter.mp hr
    exact ⟨r, hrdf, by simpa using hflag, rfl⟩
  · intro r hr hflag
    apply hperm.mem_iff.mpr
    exact List.mem_map_of_mem _ (List.mem_filter.mpr ⟨hr, by simpa using hflag⟩)

/-- C8 witness: on a concrete one-record reconciled table with a
non-NORMAL flag, the built report row is present in the generated
report. -/
theorem report_generator_spec_witness :
    toReportRow (fun _ => "")
      ({ base := { state := "Bihar", district := "Gaya", time_period := "2023-03",
                   enrolment_count := 1, update_count := 1, total_activity := 2 },
         z_score := 0, z_flag := ScoreFlag.Normal,
         iqr_flag := ScoreFlag.Dark_High,
         final_flag := FinalFlag.DARK_SPOT_MEDIUM,
         risk_severity := "Medium", anomaly_type := "Dark Spot" } : FinalRec) ∈
      generate_flagged_report (fun _ => "")
        [({ base := { state := "Bihar", district := "Gaya", time_period := "2023-03",
                      enrolment_count := 1, update_count := 1, total_activity := 2 },
            z_score := 0, z_flag := ScoreFlag.Normal,
            iqr_flag := ScoreFlag.Dark_High,
            final_flag := FinalFlag.DARK_SPOT_MEDIUM,
            risk_severity := "Medium", anomaly_type := "Dark Spot" } : FinalRec)] :=
  (report_generator_spec (fun _ => "") _).2.2.2.2.1 _ (List.mem_singleton.mpr rfl)
    (by decide)

/-- Helper: the sorted copy of the values is sorted. -/
theorem sortQ_sorted (xs : List ℚ) : List.Sorted (· ≤ ·) (sortQ xs) :=
  List.sorted_insertionSort (· ≤ ·) xs

/-- Helper: entries of a sorted list are monotone in the index. -/
theorem sorted_get_le {s : List ℚ} (hs : List.Sorted (· ≤ ·) s)
    (i j : Fin s.length) (hij : (i : ℕ) ≤ (j : ℕ)) : s.get i ≤ s.get j := by
  rcases eq_or_lt_of_le hij with heq | hlt
  · rw [Fin.ext heq]
  · exact hs.rel_get_of_lt hlt

/-- Helper: in a sorted list the clipped successor entry is at least the
current entry. -/
theorem getD_succ_ge {s : List ℚ} (hs : List.Sorted (· ≤ ·) s) (i : ℕ) :
    s.getD i 0 ≤ s.getD (i + 1) (s.getD i 0) := by
  by_cases hr : i + 1 < s.length
  · have hi : i < s.length := Nat.lt_of_succ_lt hr
    rw [List.getD_eq_get s _ hi, List.getD_eq_get s _ hr]
    exact sorted_get_le hs ⟨i, hi⟩ ⟨i + 1, hr⟩ (Nat.le_succ i)
  · rw [List.getD_eq_default s _ (le_of_not_lt hr)]

/-- Helper: the fractional position lies at or above its cell's floor
index. -/
theorem toNat_floor_le {h : ℚ} (h0 : 0 ≤ h) : ((Int.floor h).toNat : ℚ) ≤ h := by
  have hf : (0 : ℤ) ≤ Int.floor h := Int.floor_nonneg.mpr h0
  have heq : ((Int.floor h).toNat : ℚ) = ((Int.floor h : ℤ) : ℚ) := by
    exact_mod_cast congrArg (fun z : ℤ => (z : ℚ)) (Int.toNat_of_nonneg hf)
  rw [heq]
  exact Int.floor_le h

/-- Helper: the fractional position lies below its cell's floor index
plus one. -/
theorem lt_toNat_floor_add_one {h : ℚ} (h0 : 0 ≤ h) :
    h < ((Int.floor h).toNat : ℚ) + 1 := by
  have hf : (0 : ℤ) ≤ Int.floor h := Int.floor_nonneg.mpr h0
  have heq : (((Int.floor h).toNat : ℤ) : ℚ) = ((Int.floor h : ℤ) : ℚ) := by
    rw [Int.toNat_of_nonneg hf]
  have := Int.lt_floor_add_one h
  push_cast at heq ⊢
  linarith [heq.ge, heq.le, this]

/-- Helper: linear interpolation into a sorted list is bounded below by
its cell's lower entry. -/
theorem interpAt_lower {s : List ℚ} (hs : List.Sorted (· ≤ ·) s) {h : ℚ}
    (h0 : 0 ≤ h) : s.getD (Int.floor h).toNat 0 ≤ interpAt s h := by
  rw [interpAt]
  have hfrac : (0 : ℚ) ≤ h - ((Int.floor h).toNat : ℚ) :=
    sub_nonneg.mpr (toNat_floor_le h0)
  have hgap := getD_succ_ge hs (Int.floor h).toNat
  have := mul_nonneg hfrac (sub_nonneg.mpr hgap)
  linarith

/-- Helper: linear interpolation into a sorted list is bounded above by
its cell's upper entry, when that entry exists. -/
theorem interpAt_upper {s : List ℚ} (hs : List.Sorted (· ≤ ·) s) {h : ℚ}
    (h0 : 0 ≤ h) (hr : (Int.floor h).toNat + 1 < s.length) :
    interpAt s h ≤ s.getD ((Int.floor h).toNat + 1) 0 := by
  rw [interpAt]
  have hi : (Int.floor h).toNat < s.length := Nat.lt_of_succ_lt hr
  have hlo : s.getD (Int.floor h).toNat 0 = s.get ⟨(Int.floor h).toNat, hi⟩ :=
    List.getD_eq_get s _ hi
  have hhi : ∀ d : ℚ, s.getD ((Int.floor h).toNat + 1) d =
      s.get ⟨(Int.floor h).toNat + 1, hr⟩ := fun d => List.getD_eq_get s d hr
  have hgap : s.get ⟨(Int.floor h).toNat, hi⟩ ≤ s.get ⟨(Int.floor h).toNat + 1, hr⟩ :=
    sorted_get_le hs _ _ (Nat.le_succ _)
  have hfrac1 : h - ((Int.floor h).toNat : ℚ) < 1 := by
    have := lt_toNat_floor_add_one h0
    linarith
  have hfrac0 : (0 : ℚ) ≤ h - ((Int.floor h).toNat : ℚ) :=
    sub_nonneg.mpr (toNat_floor_le h0)
  rw [hlo, hhi, hhi]
  nlinarith [hgap, hfrac1, hfrac0]

/-- Helper: linear interpolation into a sorted list is monotone in the
position, within the valid position range. -/
theorem interpAt_mono {s : List ℚ} (hs : List.Sorted (· ≤ ·) s) {h1 h2 : ℚ}
    (h10 : 0 ≤ h1) (h12 : h1 ≤ h2) (h2n : h2 ≤ ((s.length - 1 : ℕ) : ℚ)) :
    interpAt s h1 ≤ interpAt s h2 := by
  by_cases hnil : s = []
  · subst hnil
    simp [interpAt]
  · have hn : 1 ≤ s.length := by
      have : s.length ≠ 0 := fun h => hnil (List.length_eq_zero.mp h)
      omega
    have h20 : 0 ≤ h2 := le_trans h10 h12
    have i2_le : (Int.floor h2).toNat ≤ s.length - 1 := by
      have hz : Int.floor h2 ≤ ((s.length - 1 : ℕ) : ℤ) := by
        have := Int.floor_le_floor h2n
        rwa [Int.floor_natCast] at this
      have := Int.toNat_le_toNat hz
      rwa [Int.toNat_natCast] at this
    have i12 : (Int.floor h1).toNat ≤ (Int.floor h2).toNat :=
      Int.toNat_le_toNat (Int.floor_le_floor h12)
    rcases eq_or_lt_of_le i12 with heq | hlt
    · rw [interpAt, interpAt, ← heq]
      have hgap := getD_succ_ge hs (Int.floor h1).toNat
      have hfr : (0 : ℚ) ≤ h2 - h1 := sub_nonneg.mpr h12
      have := mul_nonneg hfr (sub_nonneg.mpr hgap)
      nlinarith
    · have hi1r : (Int.floor h1).toNat + 1 < s.length := by omega
      have hi2r : (Int.floor h2).toNat < s.length := by omega
      calc interpAt s h1
          ≤ s.getD ((Int.floor h1).toNat + 1) 0 := interpAt_upper hs h10 hi1r
        _ ≤ s.getD (Int.floor h2).toNat 0 := by
            rw [List.getD_eq_get s _ hi1r, List.getD_eq_get s _ hi2r]
            exact sorted_get_le hs _ _ hlt
        _ ≤ interpAt s h2 := interpAt_lower hs h20

/-- Helper: the first quartile never exceeds the third quartile. -/
theorem quantile_quarter_le (xs : List ℚ) :
    quantile xs (1 / 4) ≤ quantile xs (3 / 4) := by
  rw [quantile, quantile]
  by_cases hn : (sortQ xs).length = 0
  · rw [if_pos hn, if_pos hn]
  · rw [if_neg hn, if_neg hn]
    have hc : (0 : ℚ) ≤ (((sortQ xs).length - 1 : ℕ) : ℚ) := Nat.cast_nonneg _
    apply interpAt_mono (sortQ_sorted xs)
    · positivity
    · nlinarith
    · nlinarith

/-- Helper: whenever Q1 is at most Q3, the source's four sequential IQR
assignments compute the amended classifier: the claim's rules with the
Hot_High/Dark_High overlap resolved in favour of Dark_High. -/
theorem iqrFlagOf_eq_amended (q1 q3 v : ℚ) :
    iqrFlagOf q1 q3 v = amendedIqrFlag q1 q3 v := by
  simp only [iqrFlagOf, amendedIqrFlag]
  by_cases cDH : v ≤ q1 - 3 * (q3 - q1)
  · have hcDM : ¬(v ≤ q1 - 3 / 2 * (q3 - q1) ∧ q1 - 3 * (q3 - q1) < v) :=
      fun h => absurd cDH (not_le.mpr h.2)
    rw [if_neg hcDM, if_pos cDH, if_pos cDH]
  · by_cases cHH : q3 + 3 * (q3 - q1) ≤ v
    · have hcDM : ¬(v ≤ q1 - 3 / 2 * (q3 - q1) ∧ q1 - 3 * (q3 - q1) < v) := by
        rintro ⟨hdm1, hdm2⟩
        linarith
      have hcHM : ¬(q3 + 3 / 2 * (q3 - q1) ≤ v ∧ v < q3 + 3 * (q3 - q1)) :=
        fun h => absurd cHH (not_le.mpr h.2)
      rw [if_neg hcDM, if_neg cDH, if_neg hcHM, if_pos cHH, if_neg cDH, if_pos cHH]
    · by_cases cHM : q3 + 3 / 2 * (q3 - q1) ≤ v ∧ v < q3 + 3 * (q3 - q1)
      · have hcDM : ¬(v ≤ q1 - 3 / 2 * (q3 - q1) ∧ q1 - 3 * (q3 - q1) < v) := by
          rintro ⟨hdm1, hdm2⟩
          linarith [cHM.1]
        rw [if_neg hcDM, if_neg cDH, if_pos cHM, if_neg cDH, if_neg cHH, if_pos cHM]
      · by_cases cDM : v ≤ q1 - 3 / 2 * (q3 - q1) ∧ q1 - 3 * (q3 - q1) < v
        · have cDM2 : q1 - 3 * (q3 - q1) < v ∧ v ≤ q1 - 3 / 2 * (q3 - q1) :=
            ⟨cDM.2, cDM.1⟩
          rw [if_pos cDM, if_neg cDH, if_neg cHH, if_neg cHM, if_pos cDM2]
        · have cDM2 : ¬(q1 - 3 * (q3 - q1) < v ∧ v ≤ q1 - 3 / 2 * (q3 - q1)) :=
            fun h => cDM ⟨h.2, h.1⟩
          rw [if_neg cDM, if_neg cDH, if_neg cHM, if_neg cHH, if_neg cDH, if_neg cHH,
            if_neg cHM, if_neg cDM2]

/-- C2 counterexample: on the concrete one-value group below (value 5,
so Q1 = Q3 = 5 and IQR = 0), the claim's precedence classifier returns
Hot_High, but the scorer assigns Dark_High: the overlap between the
Hot_High and Dark_High conditions is resolved by the later assignment,
not by the claim's earlier-rule precedence. -/
theorem iqr_scorer_claim_counterexample :
    (calculate_iqr_flags Record.total_activity
        [{ base := { state := "Goa", district := "Panaji", time_period := "t",
                     enrolment_count := 2, update_count := 3, total_activity := 5 },
           z_score := 0, z_flag := ScoreFlag.Normal }]).map ZIRec.iqr_flag =
      [ScoreFlag.Dark_High] ∧
    claimIqrFlag (quantile [5] (1 / 4)) (quantile [5] (3 / 4)) 5 =
      ScoreFlag.Hot_High ∧
    ScoreFlag.Dark_High ≠ ScoreFlag.Hot_High := by
  refine ⟨?_, ?_, by decide⟩
  · with_unfolding_all rfl
  · with_unfolding_all rfl

/-- C2 amended: for every group and every record in it, the
Range-Outlier Scorer assigns the flag given by the claim's fence
conditions and strictness over the linear-interpolation quartiles, with
the claim's precedence amended in exactly one point: where the Hot_High
and Dark_High conditions overlap (IQR = 0 and v = Q1 = Q3), Dark_High
wins, because the source's later assignment overwrites the earlier
one. -/
theorem iqr_scorer_amended (metric : Record → ℚ) (zs : List ZRec) :
    calculate_iqr_flags metric zs =
      zs.map (fun z =>
        { base := z.base, z_score := z.z_score, z_flag := z.z_flag,
          iqr_flag :=
            amendedIqrFlag (quantile (zs.map (fun z2 => metric z2.base)) (1 / 4))
              (quantile (zs.map (fun z2 => metric z2.base)) (3 / 4))
              (metric z.base) }) := by
  simp only [calculate_iqr_flags]
  simp only [show ∀ v : ℚ,
      iqrFlagOf (quantile (zs.map (fun z2 => metric z2.base)) (1 / 4))
        (quantile (zs.map (fun z2 => metric z2.base)) (3 / 4)) v =
      amendedIqrFlag (quantile (zs.map (fun z2 => metric z2.base)) (1 / 4))
        (quantile (zs.map (fun z2 => metric z2.base)) (3 / 4)) v from
    fun v => iqrFlagOf_eq_amended _ _ v]
